import Mathlib

/-!
Verification of the rusftp SFTP client library (protocol engine core).

The definitions below are a shallow embedding of the Rust sources:
  * `src/message/status.rs`   — status codes, `Status`, conversions
  * `src/error/wire_format.rs`— codec error type
  * `src/message/attrs.rs`    — sparse attribute record and its codec
  * `src/client/receiver.rs`  — multiplexer loop
  * `src/client/request.rs`   — request submission and reply narrowing
  * `src/client/commands.rs`  — typed facade operations
  * `src/client/file/*.rs`    — file cursor (read, seek)
  * `src/client/dir/*.rs`     — directory cursor stream

Bytes are modelled as `Nat` (each `< 256` where well-formedness matters),
byte strings as `List Nat`, machine integers as `Nat`/`Int` with explicit
`% 2^32` / `% 2^64` where the Rust code relies on fixed-width arithmetic.
-/

namespace Rusftp

/-- Byte strings on the wire (`bytes::Bytes` in the source). -/
abbrev ByteStr := List Nat

/-- Status code of an operation (`StatusCode` in `src/message/status.rs`).
`ok` indicates success, every other value is an error. -/
inductive StatusCode where
  | ok
  | eof
  | noSuchFile
  | permissionDenied
  | failure
  | badMessage
  | noConnection
  | connectionLost
  | opUnsupported
deriving DecidableEq, Repr

/-- The `#[error("...")]` display string of each status code
(`thiserror` derive in `src/message/status.rs`). -/
def StatusCode.display : StatusCode → String
  | .ok => "Ok"
  | .eof => "Eof"
  | .noSuchFile => "NoSuchFile"
  | .permissionDenied => "PermissionDenied"
  | .failure => "Failure"
  | .badMessage => "BadMessage"
  | .noConnection => "NoConnection"
  | .connectionLost => "ConnectionLost"
  | .opUnsupported => "OpUnsupported"

/-- Status of an operation (`Status` in `src/message/status.rs`).
The error and language fields are byte strings in the source; they are
modelled as `String` since the code only ever stores textual content there. -/
structure Status where
  code : StatusCode
  error : String
  language : String
deriving DecidableEq, Repr

/-- `Status::is_ok` (`src/message/status.rs`). -/
def Status.isOk (s : Status) : Bool := s.code = StatusCode.ok

/-- `StatusCode::to_status` (`src/message/status.rs`): build a `Status` with
the given message, defaulting to the code's display string when the message
is empty, with language tag `"en"`. -/
def StatusCode.toStatus (c : StatusCode) (msg : String) : Status :=
  { code := c
    error := if msg = "" then c.display else msg
    language := "en" }

/-- Codec error (`WireFormatError` in `src/error/wire_format.rs`). -/
inductive WireFormatError where
  | notEnoughData
  | unsupported
  | invalidChar
  | custom (msg : String)
deriving DecidableEq, Repr

/-- `Display` of `WireFormatError` (`src/error/wire_format.rs`). -/
def WireFormatError.display : WireFormatError → String
  | .notEnoughData => "Decode Error: Not enough data"
  | .unsupported => "Decode Error: Unsupported"
  | .invalidChar => "Decode Error: Invalid character"
  | .custom msg => "Decode Error: " ++ msg

/-- `impl From<WireFormatError> for Status` (`src/message/status.rs`):
every codec error surfaces as a status with code `BadMessage`. -/
def Status.fromWireFormatError (e : WireFormatError) : Status :=
  { code := StatusCode.badMessage
    error := e.display
    language := "en" }

/-! ## Wire primitives

Modelled from the spec: the primitive wire grammar (`src/wire`, absent from
the provided sources) — fixed-width big-endian integers, and optional fields
controlled by an external flag mask that occupy no bytes when absent.  The
byte-level behaviour is pinned by the golden vectors `ATTRS_VALID` kept in
`src/message/test_utils.rs`. -/

/-- Big-endian encoding of a `u32`. -/
def be32 (n : Nat) : List Nat :=
  [n / 16777216 % 256, n / 65536 % 256, n / 256 % 256, n % 256]

/-- Big-endian encoding of a `u64`. -/
def be64 (n : Nat) : List Nat :=
  be32 (n / 4294967296 % 4294967296) ++ be32 (n % 4294967296)

/-- Big-endian decoding of a `u32`; fails with `NotEnoughData` when fewer
than 4 bytes remain. Returns the value and the remaining input. -/
def decU32 : List Nat → Except WireFormatError (Nat × List Nat)
  | a :: b :: c :: d :: rest =>
      .ok (a * 16777216 + b * 65536 + c * 256 + d, rest)
  | _ => .error .notEnoughData

/-- Big-endian decoding of a `u64` as two `u32` halves. -/
def decU64 (input : List Nat) : Except WireFormatError (Nat × List Nat) := do
  let (hi, rest) ← decU32 input
  let (lo, rest) ← decU32 rest
  .ok (hi * 4294967296 + lo, rest)

theorem decU32_be32 (n : Nat) (rest : List Nat) (h : n < 4294967296) :
    decU32 (be32 n ++ rest) = .ok (n, rest) := by
  simp only [be32, List.cons_append, List.nil_append, decU32]
  congr 2
  omega

theorem decU64_be64 (n : Nat) (rest : List Nat) (h : n < 18446744073709551616) :
    decU64 (be64 n ++ rest) = .ok (n, rest) := by
  have h1 : n / 4294967296 % 4294967296 < 4294967296 := Nat.mod_lt _ (by norm_num)
  have h2 : n % 4294967296 < 4294967296 := Nat.mod_lt _ (by norm_num)
  simp only [be64, List.append_assoc, decU64, bind, Except.bind, decU32_be32 _ _ h1,
    decU32_be32 _ _ h2]
  congr 2
  omega

theorem decU32_be32_nil (n : Nat) (h : n < 4294967296) :
    decU32 (be32 n) = .ok (n, []) := by
  have := decU32_be32 n [] h
  simpa using this

theorem decU64_be64_nil (n : Nat) (h : n < 18446744073709551616) :
    decU64 (be64 n) = .ok (n, []) := by
  have := decU64_be64 n [] h
  simpa using this

/-! ## Attribute record (`src/message/attrs.rs`) -/

/-- Owner information (`Owner` in `src/message/attrs.rs`): `uid`/`gid` are `u32`. -/
structure Owner where
  uid : Nat
  gid : Nat
deriving DecidableEq, Repr

/-- Time attribute (`Time` in `src/message/attrs.rs`): `atime`/`mtime` are `u32`. -/
structure Time where
  atime : Nat
  mtime : Nat
deriving DecidableEq, Repr

/-- Sparse attribute record (`Attrs` in `src/message/attrs.rs`).
`perms` is the raw `u32` permission bitfield (`Permisions` is a transparent
`u32` bitflags newtype in the source). -/
structure Attrs where
  size : Option Nat := none
  owner : Option Owner := none
  perms : Option Nat := none
  time : Option Time := none
deriving DecidableEq, Repr

/-- The flag bits named in `AttrFlags` (`src/message/attrs.rs`):
Size = 0x1, Owner = 0x2, Perms = 0x4, Time = 0x8. -/
def Attrs.flags (a : Attrs) : Nat :=
  (if a.size.isSome then 1 else 0) +
  (if a.owner.isSome then 2 else 0) +
  (if a.perms.isSome then 4 else 0) +
  (if a.time.isSome then 8 else 0)

/-- Bytes of the `size` field: a `u64` when present, nothing when absent. -/
def encSize : Option Nat → List Nat
  | some n => be64 n
  | none => []

/-- Bytes of the `owner` field: `uid:u32 gid:u32` when present, nothing when absent. -/
def encOwner : Option Owner → List Nat
  | some o => be32 o.uid ++ be32 o.gid
  | none => []

/-- Bytes of the `perms` field: a `u32` when present, nothing when absent. -/
def encPerms : Option Nat → List Nat
  | some p => be32 p
  | none => []

/-- Bytes of the `time` field: `atime:u32 mtime:u32` when present, nothing when absent. -/
def encTime : Option Time → List Nat
  | some t => be32 t.atime ++ be32 t.mtime
  | none => []

/-- `impl Serialize for Attrs` (`src/message/attrs.rs`): write the flag word,
then each present field in order (absent fields occupy no bytes). -/
def Attrs.serialize (a : Attrs) : List Nat :=
  be32 a.flags ++ (encSize a.size ++ (encOwner a.owner ++ (encPerms a.perms ++ encTime a.time)))

/-- Field reader for `size` (`if !(attr_flags & AttrFlags::Size).is_empty()` in
`src/message/attrs.rs`): read a `u64` when bit `0x1` of the flags is set. -/
def parseSize (attrFlags : Nat) (input : List Nat) :
    Except WireFormatError (Option Nat × List Nat) :=
  if attrFlags % 2 = 1 then
    match decU64 input with
    | .ok (n, rest) => .ok (some n, rest)
    | .error e => .error e
  else .ok (none, input)

/-- Field reader for `owner`: read `uid:u32 gid:u32` when bit `0x2` is set. -/
def parseOwner (attrFlags : Nat) (input : List Nat) :
    Except WireFormatError (Option Owner × List Nat) :=
  if attrFlags / 2 % 2 = 1 then
    match decU32 input with
    | .ok (uid, rest) =>
      match decU32 rest with
      | .ok (gid, rest) => .ok (some { uid := uid, gid := gid }, rest)
      | .error e => .error e
    | .error e => .error e
  else .ok (none, input)

/-- Field reader for `perms`: read a `u32` when bit `0x4` is set. -/
def parsePerms (attrFlags : Nat) (input : List Nat) :
    Except WireFormatError (Option Nat × List Nat) :=
  if attrFlags / 4 % 2 = 1 then
    match decU32 input with
    | .ok (p, rest) => .ok (some p, rest)
    | .error e => .error e
  else .ok (none, input)

/-- Field reader for `time`: read `atime:u32 mtime:u32` when bit `0x8` is set. -/
def parseTime (attrFlags : Nat) (input : List Nat) :
    Except WireFormatError (Option Time × List Nat) :=
  if attrFlags / 8 % 2 = 1 then
    match decU32 input with
    | .ok (atime, rest) =>
      match decU32 rest with
      | .ok (mtime, rest) => .ok (some { atime := atime, mtime := mtime }, rest)
      | .error e => .error e
    | .error e => .error e
  else .ok (none, input)

/-- `impl Deserialize for Attrs` (`src/message/attrs.rs`): read the flag word;
`AttrFlags::from_bits` fails with `Custom("invalid attr")` when any bit
outside `0xF` is set; then read exactly the fields named by the flags,
in order size, owner, perms, time. -/
def Attrs.deserialize (input : List Nat) : Except WireFormatError (Attrs × List Nat) :=
  match decU32 input with
  | .error e => .error e
  | .ok (attrFlags, rest) =>
    if attrFlags ≥ 16 then
      .error (.custom "invalid attr")
    else
      match parseSize attrFlags rest with
      | .error e => .error e
      | .ok (size, rest) =>
        match parseOwner attrFlags rest with
        | .error e => .error e
        | .ok (owner, rest) =>
          match parsePerms attrFlags rest with
          | .error e => .error e
          | .ok (perms, rest) =>
            match parseTime attrFlags rest with
            | .error e => .error e
            | .ok (time, rest) =>
              .ok ({ size := size, owner := owner, perms := perms, time := time }, rest)

/-- Well-formedness of an `Attrs` value: every present field fits its
machine-integer width (`u64` for size, `u32` elsewhere). -/
def Attrs.wf (a : Attrs) : Prop :=
  (∀ n, a.size = some n → n < 18446744073709551616) ∧
  (∀ o, a.owner = some o → o.uid < 4294967296 ∧ o.gid < 4294967296) ∧
  (∀ p, a.perms = some p → p < 4294967296) ∧
  (∀ t, a.time = some t → t.atime < 4294967296 ∧ t.mtime < 4294967296)

instance (a : Attrs) : Decidable a.wf := by
  unfold Attrs.wf
  infer_instance

theorem Attrs.flags_spec (a : Attrs) :
    a.flags < 16 ∧
    ((a.flags % 2 = 1) ↔ a.size.isSome) ∧
    ((a.flags / 2 % 2 = 1) ↔ a.owner.isSome) ∧
    ((a.flags / 4 % 2 = 1) ↔ a.perms.isSome) ∧
    ((a.flags / 8 % 2 = 1) ↔ a.time.isSome) := by
  obtain ⟨size, owner, perms, time⟩ := a
  rcases size <;> rcases owner <;> rcases perms <;> rcases time <;>
    simp [Attrs.flags]

theorem parseSize_enc (attrFlags : Nat) (o : Option Nat) (rest : List Nat)
    (hflag : (attrFlags % 2 = 1) ↔ o.isSome)
    (hwf : ∀ n, o = some n → n < 18446744073709551616) :
    parseSize attrFlags (encSize o ++ rest) = .ok (o, rest) := by
  rcases o with _ | n
  · have hb : ¬ attrFlags % 2 = 1 := by simp [hflag]
    simp [parseSize, encSize, hb]
  · have hb : attrFlags % 2 = 1 := by simp [hflag]
    simp [parseSize, encSize, hb, decU64_be64 n rest (hwf n rfl)]

theorem parseOwner_enc (attrFlags : Nat) (o : Option Owner) (rest : List Nat)
    (hflag : (attrFlags / 2 % 2 = 1) ↔ o.isSome)
    (hwf : ∀ w, o = some w → w.uid < 4294967296 ∧ w.gid < 4294967296) :
    parseOwner attrFlags (encOwner o ++ rest) = .ok (o, rest) := by
  rcases o with _ | w
  · have hb : ¬ attrFlags / 2 % 2 = 1 := by simp [hflag]
    simp [parseOwner, encOwner, hb]
  · have hb : attrFlags / 2 % 2 = 1 := by simp [hflag]
    simp [parseOwner, encOwner, hb, decU32_be32 w.uid _ (hwf w rfl).1,
      decU32_be32 w.gid rest (hwf w rfl).2]

theorem parsePerms_enc (attrFlags : Nat) (o : Option Nat) (rest : List Nat)
    (hflag : (attrFlags / 4 % 2 = 1) ↔ o.isSome)
    (hwf : ∀ p, o = some p → p < 4294967296) :
    parsePerms attrFlags (encPerms o ++ rest) = .ok (o, rest) := by
  rcases o with _ | p
  · have hb : ¬ attrFlags / 4 % 2 = 1 := by simp [hflag]
    simp [parsePerms, encPerms, hb]
  · have hb : attrFlags / 4 % 2 = 1 := by simp [hflag]
    simp [parsePerms, encPerms, hb, decU32_be32 p rest (hwf p rfl)]

theorem parseTime_enc (attrFlags : Nat) (o : Option Time) (rest : List Nat)
    (hflag : (attrFlags / 8 % 2 = 1) ↔ o.isSome)
    (hwf : ∀ t, o = some t → t.atime < 4294967296 ∧ t.mtime < 4294967296) :
    parseTime attrFlags (encTime o ++ rest) = .ok (o, rest) := by
  rcases o with _ | t
  · have hb : ¬ attrFlags / 8 % 2 = 1 := by simp [hflag]
    simp [parseTime, encTime, hb]
  · have hb : attrFlags / 8 % 2 = 1 := by simp [hflag]
    simp [parseTime, encTime, hb, decU32_be32 t.atime _ (hwf t rfl).1,
      decU32_be32 t.mtime rest (hwf t rfl).2]

theorem parseTime_enc_nil (attrFlags : Nat) (o : Option Time)
    (hflag : (attrFlags / 8 % 2 = 1) ↔ o.isSome)
    (hwf : ∀ t, o = some t → t.atime < 4294967296 ∧ t.mtime < 4294967296) :
    parseTime attrFlags (encTime o) = .ok (o, []) := by
  have := parseTime_enc attrFlags o [] hflag hwf
  simpa using this

/-- Round-trip of the attribute codec, for well-formed values. -/
theorem Attrs.roundtrip (v : Attrs) (h : v.wf) :
    Attrs.deserialize (Attrs.serialize v) = .ok (v, []) := by
  obtain ⟨hs, ho, hp, ht⟩ := h
  obtain ⟨hlt, hb0, hb1, hb2, hb3⟩ := Attrs.flags_spec v
  have h32 : v.flags < 4294967296 := by omega
  have hnot : ¬ v.flags ≥ 16 := by omega
  unfold Attrs.serialize Attrs.deserialize
  rw [decU32_be32 _ _ h32]
  simp only [hnot, if_false]
  rw [parseSize_enc _ _ _ hb0 hs]
  simp only []
  rw [parseOwner_enc _ _ _ hb1 ho]
  simp only []
  rw [parsePerms_enc _ _ _ hb2 hp]
  simp only []
  rw [parseTime_enc_nil _ _ hb3 ht]

/-- C4: decoding an attribute record whose leading 32-bit flags word has any
bit set outside the four known bits (`0x1` size, `0x2` owner, `0x4` perms,
`0x8` time) fails; the failure is the codec error `Custom("invalid attr")`,
which the code's own conversion of codec errors to statuses
(`impl From<WireFormatError> for Status`) classifies as `BadMessage`. -/
theorem attrs_decode_unknown_flags_badMessage (flags : Nat) (rest : List Nat)
    (hlt : flags < 4294967296) (hbit : 16 ≤ flags) :
    Attrs.deserialize (be32 flags ++ rest) = .error (.custom "invalid attr") ∧
    (Status.fromWireFormatError (.custom "invalid attr")).code = StatusCode.badMessage := by
  refine ⟨?_, rfl⟩
  unfold Attrs.deserialize
  rw [decU32_be32 flags rest hlt]
  simp [hbit]

theorem attrs_decode_unknown_flags_badMessage_witness :
    (16 : Nat) < 4294967296 ∧ (16 : Nat) ≤ 16 ∧
    Attrs.deserialize (be32 16 ++ []) = .error (.custom "invalid attr") := by
  refine ⟨by norm_num, le_refl 16, ?_⟩
  exact (attrs_decode_unknown_flags_badMessage 16 [] (by norm_num) (le_refl 16)).1

/-- C5: for every well-formed `Attrs` value, decoding the encoding yields the
value back with no bytes left over; the flags word written by the encoder has
exactly the bits of the present fields; the empty record encodes as four zero
bytes; and a record with only `size = 0xfedcba9876543210` encodes as flags
`0x00000001` followed by the big-endian `u64`. -/
theorem attrs_roundtrip_exact_flags (v : Attrs) (h : v.wf) :
    Attrs.deserialize (Attrs.serialize v) = .ok (v, []) ∧
    (v.flags % 2 = 1 ↔ v.size.isSome) ∧
    (v.flags / 2 % 2 = 1 ↔ v.owner.isSome) ∧
    (v.flags / 4 % 2 = 1 ↔ v.perms.isSome) ∧
    (v.flags / 8 % 2 = 1 ↔ v.time.isSome) ∧
    Attrs.serialize {} = [0, 0, 0, 0] ∧
    Attrs.serialize {size := some 0xfedcba9876543210} =
      [0, 0, 0, 1, 0xfe, 0xdc, 0xba, 0x98, 0x76, 0x54, 0x32, 0x10] := by
  obtain ⟨-, hb0, hb1, hb2, hb3⟩ := Attrs.flags_spec v
  exact ⟨Attrs.roundtrip v h, hb0, hb1, hb2, hb3, rfl, rfl⟩

theorem attrs_roundtrip_exact_flags_witness :
    (
      { size := some 0xfedcba9876543210, owner := some { uid := 3, gid := 4 },
        perms := none, time := some { atime := 7, mtime := 8 } } : Attrs).wf ∧
    Attrs.deserialize (Attrs.serialize
      { size := some 0xfedcba9876543210, owner := some { uid := 3, gid := 4 },
        perms := none, time := some { atime := 7, mtime := 8 } }) =
      .ok ({ size := some 0xfedcba9876543210, owner := some { uid := 3, gid := 4 },
             perms := none, time := some { atime := 7, mtime := 8 } }, []) :=
  ⟨by decide,
   (attrs_roundtrip_exact_flags
     { size := some 0xfedcba9876543210, owner := some { uid := 3, gid := 4 },
       perms := none, time := some { atime := 7, mtime := 8 } } (by decide)).1⟩

/-! ## Message catalogue

The `Message` enum and its framing live in `src/message/mod.rs`, which is not
among the provided sources; the variant list and payloads below are modelled
from the spec §4.2 catalogue and from the per-variant files present under
`src/message/`. -/

/-- Path (`src/message/path.rs`): an opaque text string. -/
abbrev Path := String

/-- One listing row (`NameEntry` in `src/message/name.rs`). -/
structure NameEntry where
  filename : Path
  longName : ByteStr
  attrs : Attrs
deriving DecidableEq, Repr

/-- The closed set of SFTP messages (requests and replies).
Modelled from the spec: §4.2 catalogue (`Message` in the absent
`src/message/mod.rs`), payloads matching the per-variant files in
`src/message/`. -/
inductive Message where
  | init (version : Nat) (extensions : List (String × String))
  | version (version : Nat) (extensions : List (String × String))
  | open (filename : Path) (pflags : Nat) (attrs : Attrs)
  | close (handle : ByteStr)
  | read (handle : ByteStr) (offset : Nat) (length : Nat)
  | write (handle : ByteStr) (offset : Nat) (data : ByteStr)
  | lstat (path : Path)
  | fstat (handle : ByteStr)
  | setstat (path : Path) (attrs : Attrs)
  | fsetstat (handle : ByteStr) (attrs : Attrs)
  | opendir (path : Path)
  | readdir (handle : ByteStr)
  | remove (path : Path)
  | mkdir (path : Path) (attrs : Attrs)
  | rmdir (path : Path)
  | realpath (path : Path)
  | stat (path : Path)
  | rename (oldPath : Path) (newPath : Path)
  | readlink (path : Path)
  | symlink (linkPath : Path) (targetPath : Path)
  | extended (request : ByteStr) (data : ByteStr)
  | handle (handle : ByteStr)
  | data (data : ByteStr)
  | name (entries : List NameEntry)
  | attrs (attrs : Attrs)
  | status (status : Status)
  | extendedReply (data : ByteStr)
deriving DecidableEq, Repr

/-! ## Client error model (`src/client/error.rs`) -/

/-- The `std::io::ErrorKind` values the client code distinguishes. -/
inductive IoErrorKind where
  | other
  | unexpectedEof
  | notFound
  | permissionDenied
  | invalidData
  | unsupported
  | brokenPipe
  | wouldBlock
  | timedOut
  | writeZero
  | interrupted
  | outOfMemory
  | connectionReset
  | connectionRefused
  | connectionAborted
  | notConnected
  | invalidInput
deriving DecidableEq, Repr

/-- A `std::io::Error`: a kind plus its payload's display string. -/
structure IoError where
  kind : IoErrorKind
  msg : String
deriving DecidableEq, Repr

/-- SFTP client error (`Error` in `src/client/error.rs`). -/
inductive ClientError where
  | sftp (status : Status)
  | wireFormat (e : WireFormatError)
  | ssh (msg : String)
  | io (e : IoError)
deriving DecidableEq, Repr

/-- `Display` of `Status` (`src/message/status.rs`). -/
def Status.display (s : Status) : String :=
  if s.error = "" then s.code.display else s.code.display ++ ": " ++ s.error

/-- The protocol-status → portable-I/O-error-kind mapping
(`impl From<Status> for std::io::Error` in `src/message/status.rs`,
duplicated in `src/client/error.rs`). -/
def StatusCode.toIoErrorKind : StatusCode → IoErrorKind
  | .ok => .other
  | .eof => .unexpectedEof
  | .noSuchFile => .notFound
  | .permissionDenied => .permissionDenied
  | .failure => .other
  | .badMessage => .invalidData
  | .noConnection => .other
  | .connectionLost => .other
  | .opUnsupported => .unsupported

/-- `impl From<Error> for std::io::Error` (`src/client/error.rs`). -/
def ClientError.toIoError : ClientError → IoError
  | .sftp s => { kind := s.code.toIoErrorKind, msg := s.display }
  | .wireFormat e => { kind := .other, msg := e.display }
  | .ssh m => { kind := .other, msg := m }
  | .io e => e

/-! ## Reply narrowing (`src/client/request.rs`, `reply_impl!` macro) -/

/-- `impl SftpReply for Handle` (`reply_impl!(Handle)` in `src/client/request.rs`). -/
def Handle.fromReplyMessage : Message → Except ClientError ByteStr
  | .handle h => .ok h
  | .status s => .error (.sftp s)
  | _ => .error (.sftp (StatusCode.badMessage.toStatus "Expected a Handle or a Status"))

/-- `impl SftpReply for Data` (`reply_impl!(Data)` in `src/client/request.rs`). -/
def Data.fromReplyMessage : Message → Except ClientError ByteStr
  | .data d => .ok d
  | .status s => .error (.sftp s)
  | _ => .error (.sftp (StatusCode.badMessage.toStatus "Expected a Data or a Status"))

/-- `impl SftpReply for Name` (`reply_impl!(Name)` in `src/client/request.rs`). -/
def Name.fromReplyMessage : Message → Except ClientError (List NameEntry)
  | .name entries => .ok entries
  | .status s => .error (.sftp s)
  | _ => .error (.sftp (StatusCode.badMessage.toStatus "Expected a Name or a Status"))

/-- `impl SftpReply for Attrs` (`reply_impl!(Attrs)` in `src/client/request.rs`). -/
def Attrs.fromReplyMessage : Message → Except ClientError Attrs
  | .attrs a => .ok a
  | .status s => .error (.sftp s)
  | _ => .error (.sftp (StatusCode.badMessage.toStatus "Expected a Attrs or a Status"))

/-- The reply transformation of `SftpClient::read` in `src/client/commands.rs`
lines 412–423: `|_, msg| Ok(Handle::from_reply_message(msg)?.0)`. -/
def SftpClient.readReply (msg : Message) : Except ClientError ByteStr :=
  match Handle.fromReplyMessage msg with
  | .ok h => .ok h
  | .error e => .error e

/-- The reply transformation the library itself documents for `read`
(the doc example of `request_with` in `src/client/request.rs` and
`request_impl!(Read -> Data)`): `|_, msg| Ok(Data::from_reply_message(msg)?.0)`.
This is also what the legacy facade in `src/client/mod.rs` lines 572–585 does. -/
def SftpClient.readReplyDocumented (msg : Message) : Except ClientError ByteStr :=
  match Data.fromReplyMessage msg with
  | .ok d => .ok d
  | .error e => .error e

/-- `extract_path_from_name_message` (`src/client/commands.rs` lines 718–728):
narrow the reply to `Name` and extract its only entry; zero entries and
multiple entries both fail with a `BadMessage` status. -/
def extractPathFromNameMessage (msg : Message) : Except ClientError Path :=
  match Name.fromReplyMessage msg with
  | .error e => .error e
  | .ok [] => .error (.sftp (StatusCode.badMessage.toStatus "No entry"))
  | .ok [entry] => .ok entry.filename
  | .ok _ => .error (.sftp (StatusCode.badMessage.toStatus "Multiple entries"))

/-- C1: `SftpClient::read` in `src/client/commands.rs` narrows its reply with
`Handle::from_reply_message`, so a `Data` reply — the success reply of a Read —
is rejected with `BadMessage("Expected a Handle or a Status")` instead of
returning the carried bytes, contradicting the library's own documented
transformation (`request.rs` doc example and `request_impl!(Read -> Data)`),
which does return them. -/
theorem read_data_reply_code_bug :
    SftpClient.readReply (.data [104, 105]) =
      .error (.sftp (StatusCode.badMessage.toStatus "Expected a Handle or a Status")) ∧
    SftpClient.readReply (.data [104, 105]) ≠ .ok [104, 105] ∧
    SftpClient.readReplyDocumented (.data [104, 105]) = .ok [104, 105] := by
  exact ⟨rfl, fun hcontra => Except.noConfusion hcontra, rfl⟩

/-- C6: for a `RealPath`/`ReadLink` reply that is a `Name` message, the facade
returns the single entry's filename when there is exactly one entry, and fails
with a `BadMessage` status both on zero entries and on more than one entry. -/
theorem realpath_readlink_single_entry :
    (∀ e : NameEntry, extractPathFromNameMessage (.name [e]) = .ok e.filename) ∧
    extractPathFromNameMessage (.name []) =
      .error (.sftp (StatusCode.badMessage.toStatus "No entry")) ∧
    (StatusCode.badMessage.toStatus "No entry").code = StatusCode.badMessage ∧
    (∀ (a b : NameEntry) (rest : List NameEntry),
      extractPathFromNameMessage (.name (a :: b :: rest)) =
        .error (.sftp (StatusCode.badMessage.toStatus "Multiple entries"))) ∧
    (StatusCode.badMessage.toStatus "Multiple entries").code = StatusCode.badMessage := by
  refine ⟨fun e => rfl, rfl, rfl, fun a b rest => ?_, rfl⟩
  simp [extractPathFromNameMessage, Name.fromReplyMessage]

/-! ## Multiplexer / receiver (`src/client/receiver.rs`)

The receiver owns the byte stream, an ID counter (`next_id`, a `u32` starting
at 0), and the in-flight table `onflight`. Sinks (`oneshot::Sender`) are
modelled as opaque `Nat` tokens. The frames written to the stream are
recorded as a trace of `(id, message)` pairs, and responses delivered to
sinks as a trace of `(sink, response)` pairs. -/

/-- What a request future resolves to (`Response` in `src/client/receiver.rs`). -/
abbrev Response := Except ClientError Message

instance {ε α : Type} [DecidableEq ε] [DecidableEq α] : DecidableEq (Except ε α)
  | .error e, .error f => decidable_of_iff (e = f) (by simp)
  | .error _, .ok _ => .isFalse (fun hcontra => Except.noConfusion hcontra)
  | .ok _, .error _ => .isFalse (fun hcontra => Except.noConfusion hcontra)
  | .ok a, .ok b => decidable_of_iff (a = b) (by simp)

/-- Decode failure of a reply frame: `Message::decode_raw` errors carry an
optional request id recovered from the malformed frame
(`err.id` in `src/client/receiver.rs`). -/
structure DecodeError where
  id : Option Nat
  inner : WireFormatError
deriving DecidableEq, Repr

/-- One event observed by the receiver loop (`StreamItem` in
`src/client/receiver.rs`): a new command from the queue, a complete reply
frame (already split and decoded: `Message::decode_raw` lives in the absent
`src/message/mod.rs`), or a stream read error. A request event carries the
result of `write_msg` for that command (`none` = written successfully). -/
inductive StreamEvent where
  | request (msg : Message) (sink : Nat) (writeResult : Option ClientError)
  | response (frame : Except DecodeError (Nat × Message))
  | streamError (kind : IoErrorKind)
deriving DecidableEq, Repr

/-- State of the receiver (`Receiver` in `src/client/receiver.rs`), together
with the two observable traces. -/
structure ReceiverState where
  nextId : Nat
  onflight : List (Nat × Nat)
  wire : List (Nat × Message)
  completed : List (Nat × Response)
deriving Repr

/-- The receiver as created by `Receiver::new`: id counter 0, empty table. -/
def ReceiverState.initial : ReceiverState :=
  { nextId := 0, onflight := [], wire := [], completed := [] }

/-- `HashMap::remove`: take the entry with the given key out of the table,
returning its sink and the remaining table. -/
def removeEntry (id : Nat) : List (Nat × Nat) → Option (Nat × List (Nat × Nat))
  | [] => none
  | (k, s) :: rest =>
    if k = id then some (s, rest)
    else
      match removeEntry id rest with
      | some (s2, rest2) => some (s2, (k, s) :: rest2)
      | none => none

/-- One iteration of the receiver loop (`Receiver::run`, `src/client/receiver.rs`
lines 147–208). On a request: increment the id counter by one, write the frame
with that id, and insert the sink into the in-flight table on success (deliver
the write error to the sink on failure). On a decoded response: deliver it to
the matching in-flight sink, or log and discard when no entry matches. On a
decode failure carrying an id: deliver the decode error to the matching sink. -/
def Receiver.step (st : ReceiverState) : StreamEvent → ReceiverState
  | .request msg sink writeResult =>
    let id := (st.nextId + 1) % 4294967296
    match writeResult with
    | none =>
      { st with
        nextId := id
        wire := st.wire ++ [(id, msg)]
        onflight := st.onflight ++ [(id, sink)] }
    | some err =>
      { st with
        nextId := id
        completed := st.completed ++ [(sink, .error err)] }
  | .response (.ok (id, msg)) =>
    match removeEntry id st.onflight with
    | some (sink, rest) =>
      { st with
        onflight := rest
        completed := st.completed ++ [(sink, .ok msg)] }
    | none => st
  | .response (.error e) =>
    match e.id with
    | some id =>
      match removeEntry id st.onflight with
      | some (sink, rest) =>
        { st with
          onflight := rest
          completed := st.completed ++ [(sink, .error (.wireFormat e.inner))] }
      | none => st
    | none => st
  | .streamError _ => st

/-- The stream-error kinds the loop tolerates and keeps running on
(`src/client/receiver.rs` lines 196–206); any other kind breaks the loop. -/
def transientIoError : IoErrorKind → Bool
  | .wouldBlock => true
  | .timedOut => true
  | .writeZero => true
  | .interrupted => true
  | .outOfMemory => true
  | _ => false

/-- The receiver loop: process events until the stream ends (the event list is
exhausted) or a fatal stream error breaks the loop. -/
def Receiver.runLoop (st : ReceiverState) : List StreamEvent → ReceiverState
  | [] => st
  | .streamError k :: rest =>
    if transientIoError k then Receiver.runLoop st rest else st
  | ev :: rest => Receiver.runLoop (Receiver.step st ev) rest

/-- The response delivered to every entry still in flight when the loop exits
(`src/client/receiver.rs` lines 210–217). -/
def connectionLostResponse : Response :=
  .error (.sftp (StatusCode.connectionLost.toStatus
    "Could not receive response: SFTP stream stopped"))

/-- The actions `Receiver::run` performs after its loop exits, in order. -/
inductive FinalAction where
  | complete (sink : Nat) (response : Response)
  | closeCommands
  | shutdownStream
deriving Repr

/-- The epilogue of `Receiver::run` (`src/client/receiver.rs` lines 210–225):
complete every remaining in-flight entry with `ConnectionLost`, then close the
command queue and shut the stream down. -/
def Receiver.finishActions (st : ReceiverState) : List FinalAction :=
  st.onflight.map (fun e => .complete e.2 connectionLostResponse)
    ++ [.closeCommands, .shutdownStream]

/-- `Receiver::run`: the loop, then the epilogue. Returns the state at loop
exit and the trace of epilogue actions. -/
def Receiver.run (events : List StreamEvent) : ReceiverState × List FinalAction :=
  let st := Receiver.runLoop ReceiverState.initial events
  (st, Receiver.finishActions st)

/-- A burst of enqueued commands, all written successfully. -/
def requestEvents (cmds : List (Message × Nat)) : List StreamEvent :=
  cmds.map (fun c => .request c.1 c.2 none)

theorem runLoop_requestEvents_spec (cmds : List (Message × Nat)) :
    ∀ st : ReceiverState, st.nextId + cmds.length < 4294967296 →
    (Receiver.runLoop st (requestEvents cmds)).wire =
      st.wire ++ (List.range' (st.nextId + 1) cmds.length).zip (cmds.map Prod.fst) ∧
    (Receiver.runLoop st (requestEvents cmds)).nextId = st.nextId + cmds.length := by
  induction cmds with
  | nil => intro st _; simp [requestEvents, Receiver.runLoop]
  | cons c rest ih =>
    intro st hlt
    have hid : (st.nextId + 1) % 4294967296 = st.nextId + 1 := by
      apply Nat.mod_eq_of_lt
      simp at hlt
      omega
    simp only [requestEvents, List.map_cons, Receiver.runLoop, Receiver.step, hid]
    have hnext := ih
      { st with
        nextId := st.nextId + 1
        wire := st.wire ++ [(st.nextId + 1, c.1)]
        onflight := st.onflight ++ [(st.nextId + 1, c.2)] }
      (by simp at hlt ⊢; omega)
    simp only [requestEvents] at hnext
    refine ⟨?_, ?_⟩
    · rw [hnext.1]
      simp [List.range'_succ, List.append_assoc]
    · rw [hnext.2]
      simp
      omega

/-- C2: starting from a fresh session (`next_id = 0`), enqueueing `N` requests
before any reply arrives writes frames whose ids are exactly `1, 2, ..., N`,
paired with the requests in enqueue order; the counter is a `u32` incremented
by one before each frame is encoded, with wraparound left to the bare `% 2^32`
of machine arithmetic. -/
theorem request_ids_are_one_to_n (cmds : List (Message × Nat))
    (h : cmds.length < 4294967296) :
    ReceiverState.initial.nextId = 0 ∧
    (Receiver.runLoop ReceiverState.initial (requestEvents cmds)).wire =
      (List.range' 1 cmds.length).zip (cmds.map Prod.fst) ∧
    (Receiver.runLoop ReceiverState.initial (requestEvents cmds)).nextId = cmds.length := by
  have hspec := runLoop_requestEvents_spec cmds ReceiverState.initial
    (by simpa [ReceiverState.initial] using h)
  refine ⟨rfl, ?_, ?_⟩
  · simpa [ReceiverState.initial] using hspec.1
  · simpa [ReceiverState.initial] using hspec.2

theorem request_ids_are_one_to_n_witness :
    ([((Message.stat "/a", 11) : Message × Nat), (Message.lstat "/b", 12),
      (Message.rmdir "/c", 13)].length < 4294967296) ∧
    (Receiver.runLoop ReceiverState.initial (requestEvents
      [(Message.stat "/a", 11), (Message.lstat "/b", 12), (Message.rmdir "/c", 13)])).wire =
      [(1, Message.stat "/a"), (2, Message.lstat "/b"), (3, Message.rmdir "/c")] := by
  refine ⟨by norm_num, ?_⟩
  have h := (request_ids_are_one_to_n
    [(Message.stat "/a", 11), (Message.lstat "/b", 12), (Message.rmdir "/c", 13)]
    (by norm_num)).2.1
  simpa [List.range'] using h

/-- C3: when the receiver loop exits (stream end, half-close, or a fatal
stream error) while entries remain in the in-flight table, `Receiver::run`
completes every remaining entry with the `ConnectionLost` protocol error, and
all of these completions precede closing the command queue and shutting the
stream down. -/
theorem inflight_completed_with_connection_lost (events : List StreamEvent) :
    (Receiver.run events).2 =
      ((Receiver.run events).1.onflight.map
        (fun e => FinalAction.complete e.2 connectionLostResponse))
        ++ [FinalAction.closeCommands, FinalAction.shutdownStream] ∧
    (∀ p, p ∈ (Receiver.run events).1.onflight →
      FinalAction.complete p.2 connectionLostResponse ∈
        ((Receiver.run events).1.onflight.map
          (fun e => FinalAction.complete e.2 connectionLostResponse))) ∧
    connectionLostResponse = .error (.sftp
      { code := StatusCode.connectionLost
        error := "Could not receive response: SFTP stream stopped"
        language := "en" }) := by
  refine ⟨rfl, ?_, ?_⟩
  · intro p hp
    exact List.mem_map.mpr ⟨p, hp, rfl⟩
  · simp [connectionLostResponse, StatusCode.toStatus]

theorem inflight_completed_with_connection_lost_witness :
    ((1, 7) : Nat × Nat) ∈ (Receiver.run [.request (.stat "/a") 7 none]).1.onflight ∧
    FinalAction.complete 7 connectionLostResponse ∈
      ((Receiver.run [.request (.stat "/a") 7 none]).1.onflight.map
        (fun e => FinalAction.complete e.2 connectionLostResponse)) := by
  have h := (inflight_completed_with_connection_lost [.request (.stat "/a") 7 none]).2.1
    (1, 7) (by decide)
  exact ⟨by decide, h⟩

/-! ## Request submission (`src/client/request.rs`) -/

/-- The state of a `SftpFuture` right after `request_with` returns
(`SftpFuture` in `src/client/request.rs`): either an error to be delivered at
first poll, or a pending one-shot receiver. -/
inductive SftpFutureInit where
  | error (e : ClientError)
  | pending (sink : Nat)
deriving DecidableEq, Repr

/-- `SftpClient::request_with` (`src/client/request.rs` lines 111–152).
`connected` is whether the client still holds its command channel
(`self.commands`); `sendError` is the result of `commands.send`
(`none` = accepted). Returns the future state and the commands that reach the
receiver queue. A `Status` request is intercepted: `Ok` becomes a
`BadMessage` error, any other status is returned to the caller as the error
itself, and nothing is sent. -/
def SftpClient.requestWith (connected : Bool) (request : Except ClientError Message)
    (sink : Nat) (sendError : Option String) : SftpFutureInit × List StreamEvent :=
  if connected then
    match request with
    | .ok (.status s) =>
      if s.code = StatusCode.ok then
        (.error (.sftp (StatusCode.badMessage.toStatus
          "Tried to send an OK status message to the server")), [])
      else
        (.error (.sftp s), [])
    | .ok msg =>
      match sendError with
      | none => (.pending sink, [.request msg sink none])
      | some e => (.error (.sftp (StatusCode.failure.toStatus e)), [])
    | .error e => (.error e, [])
  else
    (.error (.io { kind := .brokenPipe, msg := "SFTP client has been stopped" }), [])

/-- C10: a request whose message is itself a `Status` is never handed to the
receiver: no command is emitted, so the receiver's id counter and in-flight
table are untouched; the caller gets `BadMessage("Tried to send an OK status
message to the server")` when the status code is `Ok`, and the very status
back as the error otherwise. -/
theorem status_request_never_sent (s : Status) (sink : Nat) (sendError : Option String) :
    (SftpClient.requestWith true (.ok (.status s)) sink sendError).2 = [] ∧
    (s.code = StatusCode.ok →
      (SftpClient.requestWith true (.ok (.status s)) sink sendError).1 =
        .error (.sftp (StatusCode.badMessage.toStatus
          "Tried to send an OK status message to the server"))) ∧
    (s.code ≠ StatusCode.ok →
      (SftpClient.requestWith true (.ok (.status s)) sink sendError).1 =
        .error (.sftp s)) ∧
    (∀ st : ReceiverState,
      Receiver.runLoop st (SftpClient.requestWith true (.ok (.status s)) sink sendError).2 = st) := by
  by_cases hc : s.code = StatusCode.ok <;>
    simp [SftpClient.requestWith, hc, Receiver.runLoop]

theorem status_request_never_sent_witness :
    (SftpClient.requestWith true (.ok (.status { code := .ok, error := "", language := "" }))
      5 none).1 =
      .error (.sftp (StatusCode.badMessage.toStatus
        "Tried to send an OK status message to the server")) ∧
    (SftpClient.requestWith true
      (.ok (.status { code := .permissionDenied, error := "denied", language := "en" }))
      5 none).1 =
      .error (.sftp { code := .permissionDenied, error := "denied", language := "en" }) ∧
    Receiver.runLoop ReceiverState.initial
      (SftpClient.requestWith true
        (.ok (.status { code := .permissionDenied, error := "denied", language := "en" }))
        5 none).2 = ReceiverState.initial := by
  refine ⟨?_, ?_, ?_⟩
  · exact (status_request_never_sent { code := .ok, error := "", language := "" } 5 none).2.1 rfl
  · exact (status_request_never_sent
      { code := .permissionDenied, error := "denied", language := "en" } 5 none).2.2.1
      (by decide)
  · exact (status_request_never_sent
      { code := .permissionDenied, error := "denied", language := "en" } 5 none).2.2.2
      ReceiverState.initial

/-! ## File cursor (`src/client/file/`) -/

/-- `u64::checked_add_signed`: `none` when the mathematical sum leaves
`[0, 2^64)`. -/
def checkedAddSigned (n : Nat) (i : Int) : Option Nat :=
  if 0 ≤ (n : Int) + i ∧ (n : Int) + i < 18446744073709551616 then
    some ((n : Int) + i).toNat
  else none

/-- Discriminant of the file cursor's pending operation
(`PendingOperation` in `src/client/file/mod.rs`). -/
inductive PendingTag where
  | noOp
  | read
  | write
  | seek
  | close
deriving DecidableEq, Repr

/-- `std::io::SeekFrom`. -/
inductive SeekFrom where
  | fromStart (n : Nat)
  | fromEnd (i : Int)
  | fromCurrent (i : Int)
deriving DecidableEq, Repr

/-- The mapping the spawned read future applies to the `Read` reply
(`src/client/file/read.rs` lines 94–103): a `Status(Eof)` protocol error
becomes an empty successful read, any other error is converted to an
`std::io::Error`. -/
def File.readFutureResult (reply : Except ClientError ByteStr) : Except IoError ByteStr :=
  match reply with
  | .ok data => .ok data
  | .error (.sftp s) =>
    if s.code = StatusCode.eof then .ok []
    else .error (ClientError.sftp s).toIoError
  | .error e => .error e.toIoError

/-- Completion of `File::poll_read` (`src/client/file/read.rs` lines 114–127):
on success, an empty payload is a zero-byte read leaving the offset alone;
otherwise the bytes are copied into the caller's buffer and the offset is
advanced by their number (`u64` addition). Returns the bytes put into the
buffer and the new offset. -/
def File.pollReadFinish (offset : Nat) (result : Except IoError ByteStr) :
    Except IoError (ByteStr × Nat) :=
  match result with
  | .ok data =>
    if data = [] then .ok ([], offset)
    else .ok (data, (offset + data.length) % 18446744073709551616)
  | .error e => .error e

/-- A full `File::poll_read` round: spawn the read, map its reply, finish. -/
def File.pollRead (offset : Nat) (reply : Except ClientError ByteStr) :
    Except IoError (ByteStr × Nat) :=
  File.pollReadFinish offset (File.readFutureResult reply)

/-- C7: a file-cursor read whose `Read` reply is `Status(Eof)` completes as a
successful zero-byte read with the offset unchanged; a `Data` reply carrying
`n` bytes puts those `n` bytes in the caller's buffer and advances the offset
by exactly `n`. -/
theorem file_read_eof_and_data (offset : Nat) (s : Status) (data : ByteStr)
    (heof : s.code = StatusCode.eof)
    (hoff : offset + data.length < 18446744073709551616) :
    File.pollRead offset (.error (.sftp s)) = .ok ([], offset) ∧
    File.pollRead offset (.ok data) = .ok (data, offset + data.length) := by
  constructor
  · simp [File.pollRead, File.readFutureResult, File.pollReadFinish, heof]
  · by_cases hd : data = []
    · simp [File.pollRead, File.readFutureResult, File.pollReadFinish, hd]
    · simp [File.pollRead, File.readFutureResult, File.pollReadFinish, hd,
        Nat.mod_eq_of_lt hoff]

theorem file_read_eof_and_data_witness :
    File.pollRead 10 (.error (.sftp { code := .eof, error := "eof", language := "en" })) =
      .ok ([], 10) ∧
    File.pollRead 10 (.ok [1, 2, 3]) = .ok ([1, 2, 3], 13) := by
  have h := file_read_eof_and_data 10 { code := .eof, error := "eof", language := "en" }
    [1, 2, 3] rfl (by norm_num)
  exact h

/-- Outcome of `File::start_seek`: the offset after the call, the pending
operation after the call, and whether an `FStat` request was issued. -/
structure StartSeekResult where
  offset : Nat
  pending : PendingTag
  issuedFStat : Bool
deriving DecidableEq, Repr

/-- `File::start_seek` (`src/client/file/seek.rs` lines 25–69). With no
pending operation: `Start(n)` sets the offset immediately; `End(i)` issues an
`FStat` (via `File::stat`) and parks a Seek computation as the pending
operation; `Current(i)` adds the signed delta with `checked_add_signed`,
failing with `InvalidData` when it overflows. With any pending operation the
call fails with `WouldBlock`. -/
def File.startSeek (offset : Nat) (pending : PendingTag) (pos : SeekFrom) :
    Except IoError StartSeekResult :=
  match pending with
  | .noOp =>
    match pos with
    | .fromStart n => .ok { offset := n, pending := .noOp, issuedFStat := false }
    | .fromEnd _ => .ok { offset := offset, pending := .seek, issuedFStat := true }
    | .fromCurrent i =>
      match checkedAddSigned offset i with
      | some n => .ok { offset := n, pending := .noOp, issuedFStat := false }
      | none => .error { kind := .invalidData, msg := "Would seek to negative position" }
  | _ => .error { kind := .wouldBlock, msg := "A pending operation must complete before seek" }

/-- The parked seek-from-end computation (`src/client/file/seek.rs` lines
35–49): from the `FStat` reply, compute `size + i` with `checked_add_signed`;
a missing size is `Unsupported`, an out-of-range sum is `InvalidData`. -/
def File.seekFromEndCompute (i : Int) (statReply : Except ClientError Attrs) :
    Except IoError Nat :=
  match statReply with
  | .error e => .error e.toIoError
  | .ok attrs =>
    match attrs.size with
    | some n =>
      match checkedAddSigned n i with
      | some m => .ok m
      | none => .error { kind := .invalidData, msg := "Would seek to negative position" }
    | none => .error
        { kind := .unsupported
          msg := "Unable to seek from the end of file: could not get file size" }

/-- `File::poll_complete` (`src/client/file/seek.rs` lines 71–85): when the
pending operation was a Seek that resolved to `Ok(n)`, the offset becomes `n`;
a Seek error leaves the offset; any other (or no) pending operation reports
the current offset. Returns the new offset and the poll result. -/
def File.pollComplete (offset : Nat) (seekResult : Option (Except IoError Nat)) :
    Nat × Except IoError Nat :=
  match seekResult with
  | some (.ok n) => (n, .ok n)
  | some (.error e) => (offset, .error e)
  | none => (offset, .ok offset)

/-- C8: with no pending operation, seek-from-end issues an `FStat` and — once
the reply arrives — sets the offset to `size + i` on success, fails with
`Unsupported` when the reply omits the size, and with `InvalidData` when
`size + i` falls outside `u64`; seek-from-current adds the signed delta to the
offset, failing with `InvalidData` on overflow; and any pending operation
makes `start_seek` fail with `WouldBlock`. -/
theorem file_seek_spec (offset size : Nat) (i : Int) (attrs : Attrs) (pending : PendingTag) :
    File.startSeek offset .noOp (.fromEnd i) =
      .ok { offset := offset, pending := .seek, issuedFStat := true } ∧
    (attrs.size = some size → 0 ≤ (size : Int) + i →
      (size : Int) + i < 18446744073709551616 →
      File.pollComplete offset (some (File.seekFromEndCompute i (.ok attrs))) =
        (((size : Int) + i).toNat, .ok ((size : Int) + i).toNat)) ∧
    (attrs.size = none →
      File.seekFromEndCompute i (.ok attrs) =
        .error
          { kind := .unsupported
            msg := "Unable to seek from the end of file: could not get file size" }) ∧
    (attrs.size = some size →
      ((size : Int) + i < 0 ∨ 18446744073709551616 ≤ (size : Int) + i) →
      File.seekFromEndCompute i (.ok attrs) =
        .error { kind := .invalidData, msg := "Would seek to negative position" }) ∧
    (0 ≤ (offset : Int) + i → (offset : Int) + i < 18446744073709551616 →
      File.startSeek offset .noOp (.fromCurrent i) =
        .ok { offset := ((offset : Int) + i).toNat, pending := .noOp, issuedFStat := false }) ∧
    (((offset : Int) + i < 0 ∨ 18446744073709551616 ≤ (offset : Int) + i) →
      File.startSeek offset .noOp (.fromCurrent i) =
        .error { kind := .invalidData, msg := "Would seek to negative position" }) ∧
    (pending ≠ .noOp → ∀ pos : SeekFrom,
      File.startSeek offset pending pos =
        .error { kind := .wouldBlock, msg := "A pending operation must complete before seek" }) := by
  refine ⟨rfl, ?_, ?_, ?_, ?_, ?_, ?_⟩
  · intro hsz hlo hhi
    simp [File.seekFromEndCompute, File.pollComplete, hsz, checkedAddSigned, hlo, hhi]
  · intro hsz
    simp [File.seekFromEndCompute, hsz]
  · intro hsz hover
    have : ¬ (0 ≤ (size : Int) + i ∧ (size : Int) + i < 18446744073709551616) := by omega
    simp [File.seekFromEndCompute, hsz, checkedAddSigned, this]
  · intro hlo hhi
    simp [File.startSeek, checkedAddSigned, hlo, hhi]
  · intro hover
    have : ¬ (0 ≤ (offset : Int) + i ∧ (offset : Int) + i < 18446744073709551616) := by omega
    simp [File.startSeek, checkedAddSigned, this]
  · intro hpending pos
    cases pending <;> simp_all [File.startSeek]

theorem file_seek_spec_witness :
    File.startSeek 0 .noOp (.fromEnd (-10)) =
      .ok { offset := 0, pending := .seek, issuedFStat := true } ∧
    File.pollComplete 0 (some (File.seekFromEndCompute (-10)
      (.ok { size := some 100 }))) = (90, .ok 90) ∧
    File.seekFromEndCompute (-10) (.ok ({} : Attrs)) =
      .error
        { kind := .unsupported
          msg := "Unable to seek from the end of file: could not get file size" } ∧
    File.seekFromEndCompute (-200) (.ok { size := some 100 }) =
      .error { kind := .invalidData, msg := "Would seek to negative position" } ∧
    File.startSeek 50 .noOp (.fromCurrent (-20)) =
      .ok { offset := 30, pending := .noOp, issuedFStat := false } ∧
    File.startSeek 50 .noOp (.fromCurrent (-60)) =
      .error { kind := .invalidData, msg := "Would seek to negative position" } ∧
    File.startSeek 50 .read (.fromStart 3) =
      .error { kind := .wouldBlock, msg := "A pending operation must complete before seek" } := by
  have h100 := file_seek_spec 0 100 (-10) { size := some 100 } .read
  have hnone := file_seek_spec 0 100 (-10) ({} : Attrs) .read
  have hover := file_seek_spec 0 100 (-200) { size := some 100 } .read
  have hcur := file_seek_spec 50 100 (-20) { size := some 100 } .read
  have hcur2 := file_seek_spec 50 100 (-60) { size := some 100 } .read
  refine ⟨h100.1, ?_, hnone.2.2.1 rfl, ?_, ?_, ?_, ?_⟩
  · have := h100.2.1 rfl (by norm_num) (by norm_num)
    simpa using this
  · exact hover.2.2.2.1 rfl (by norm_num)
  · have := hcur.2.2.2.2.1 (by norm_num) (by norm_num)
    simpa using this
  · exact hcur2.2.2.2.2.2.1 (by norm_num)
  · exact hcur2.2.2.2.2.2.2 (by simp) (.fromStart 3)

/-! ## Directory cursor (`src/client/dir/`) -/

/-- Local state of the directory cursor (`Dir` in `src/client/dir/mod.rs`):
the server handle (`none` once closed) and the entry buffer (`none` once the
iteration has terminated). The source keeps the buffer reversed in a `Vec`
and pops the next entry from the tail in O(1); the model keeps the same
buffer in iteration order (the mirror image of that `Vec`), so `Vec::pop` is
taking the head. `Dir::new` starts with `buffer = Some(Name::default())`,
i.e. `some []`. -/
structure DirState where
  handle : Option ByteStr
  buffer : Option (List NameEntry)
deriving DecidableEq, Repr

/-- The sequence of items `Dir::poll_next` (`src/client/dir/stream.rs` lines
26–95) produces, given the `ReadDir` replies the server will return. Each
recursive step is one poll: yield the next buffered entry if there is one; a
closed handle yields one `BrokenPipe` error item and the iteration is over;
otherwise issue `ReadDir` and on its reply either refill the buffer from the
batch and yield the batch's first entry (`entries.reverse()` then `pop`),
yield one `UnexpectedEof` error item for an `Ok` empty batch, terminate
cleanly on `Status(Eof)`, or yield the error item and terminate. An empty
`replies` list means the server never answers the outstanding `ReadDir` (the
stream stays pending, producing nothing further). -/
def Dir.stream : DirState → List (Except ClientError (List NameEntry)) →
    List (Except ClientError NameEntry)
  | { handle := _, buffer := none }, _ => []
  | { handle := hd, buffer := some (entry :: rest) }, replies =>
    .ok entry :: Dir.stream { handle := hd, buffer := some rest } replies
  | { handle := none, buffer := some [] }, _ =>
    [.error (.io { kind := .brokenPipe, msg := "Dir was closed" })]
  | { handle := some _, buffer := some [] }, [] => []
  | { handle := some h, buffer := some [] }, reply :: rs =>
    match reply with
    | .ok [] =>
      [.error (.io
        { kind := .unexpectedEof
          msg := "Found no more directory entries while it was expecting some" })]
    | .ok (entry :: rest) =>
      .ok entry :: Dir.stream { handle := some h, buffer := some rest } rs
    | .error (.sftp s) =>
      if s.code = StatusCode.eof then []
      else [.error (.sftp s)]
    | .error e => [.error e]
termination_by st replies => (replies.length, (st.buffer.getD []).length)
decreasing_by
  · apply Prod.Lex.right
    simp
  · apply Prod.Lex.left
    simp

theorem dir_stream_drain (h : Option ByteStr) (buf : List NameEntry)
    (replies : List (Except ClientError (List NameEntry))) :
    Dir.stream { handle := h, buffer := some buf } replies =
      buf.map Except.ok ++ Dir.stream { handle := h, buffer := some [] } replies := by
  induction buf with
  | nil => simp
  | cons e es ih =>
    rw [Dir.stream.eq_def]
    simp only []
    rw [ih]
    simp

/-- C9: iterating a directory cursor yields exactly the concatenation of the
non-empty `ReadDir` batches in server order, terminating cleanly at the
`Status(Eof)` reply; a `Status(Eof)` reply produces no item; and an `Ok`
reply with an empty batch yields a single `UnexpectedEof` error item after
which the sequence terminates. -/
theorem dir_iteration_spec (hnd : ByteStr) (batches : List (List NameEntry))
    (s : Status) (hs : s.code = StatusCode.eof)
    (hne : ∀ b ∈ batches, b ≠ []) :
    Dir.stream { handle := some hnd, buffer := some [] }
        (batches.map Except.ok ++ [.error (.sftp s)]) =
      batches.flatten.map Except.ok ∧
    (∀ rs, Dir.stream { handle := some hnd, buffer := some [] } (.ok [] :: rs) =
      [.error (.io
        { kind := .unexpectedEof
          msg := "Found no more directory entries while it was expecting some" })]) ∧
    Dir.stream { handle := some hnd, buffer := some [] } [.error (.sftp s)] = [] := by
  refine ⟨?_, ?_, ?_⟩
  · induction batches with
    | nil =>
      rw [Dir.stream.eq_def]
      simp [hs]
    | cons b bs ih =>
      have hb := hne b (List.mem_cons_self b bs)
      have ihbs := ih (fun q hq => hne q (List.mem_cons_of_mem _ hq))
      obtain ⟨e, es, rfl⟩ : ∃ e es, b = e :: es := by
        cases b with
        | nil => exact absurd rfl hb
        | cons e es => exact ⟨e, es, rfl⟩
      rw [List.map_cons, List.cons_append, Dir.stream.eq_def]
      simp only []
      rw [dir_stream_drain]
      simp [ihbs]
  · intro rs
    rw [Dir.stream.eq_def]
  · rw [Dir.stream.eq_def]
    simp [hs]

theorem dir_iteration_spec_witness :
    Dir.stream { handle := some [9], buffer := some [] }
        ([[{ filename := "a", longName := [], attrs := {} },
           { filename := "b", longName := [], attrs := {} },
           { filename := "c", longName := [], attrs := {} }],
          [{ filename := "d", longName := [], attrs := {} },
           { filename := "e", longName := [], attrs := {} }]].map Except.ok
          ++ [.error (.sftp { code := .eof, error := "", language := "" })]) =
      [.ok { filename := "a", longName := [], attrs := {} },
       .ok { filename := "b", longName := [], attrs := {} },
       .ok { filename := "c", longName := [], attrs := {} },
       .ok { filename := "d", longName := [], attrs := {} },
       .ok { filename := "e", longName := [], attrs := {} }] := by
  have h := (dir_iteration_spec [9]
    [[{ filename := "a", longName := [], attrs := {} },
      { filename := "b", longName := [], attrs := {} },
      { filename := "c", longName := [], attrs := {} }],
     [{ filename := "d", longName := [], attrs := {} },
      { filename := "e", longName := [], attrs := {} }]]
    { code := .eof, error := "", language := "" } rfl (by simp)).1
  simpa using h

end Rusftp
